import Mathlib

/-!
Verification of the snake-game core (`the_snake.py`).

A shallow embedding of the grid/snake simulation engine: constants, the
`Snake` state and its operations (`move`, `change_length`, `reset`,
`update_direction`, `get_collision`), item placement
(`Apple.randomize_position`, `Rock`/`Poison` construction), input handling
(`handle_keys` over the `DIRECTIONS` table) and one iteration of the main
loop (`tick`).

Python machine integers are modelled as `Int` (Python ints are unbounded;
`%` on a positive modulus agrees with `Int.emod`).  Calls to
`randint(0, GRID_WIDTH - 1)` / `randint(0, GRID_HEIGHT - 1)` are modelled
by threading an explicit stream of drawn pairs `(i, j) : Nat × Nat`; a
stream is *valid* when every drawn pair is inside the `randint` bounds,
which the real generator guarantees.  The unbounded retry loop of
`randomize_position` becomes a recursion over the finite list of draws,
returning `none` when the list is exhausted (the real loop would still be
running).
-/

namespace TheSnake

/-- Constant `SCREEN_WIDTH = 640` from the source. -/
def SCREEN_WIDTH : Int := 640

/-- Constant `SCREEN_HEIGHT = 480` from the source. -/
def SCREEN_HEIGHT : Int := 480

/-- Constant `GRID_SIZE = 20` from the source. -/
def GRID_SIZE : Int := 20

/-- Constant `GRID_WIDTH = SCREEN_WIDTH // GRID_SIZE` from the source. -/
def GRID_WIDTH : Int := SCREEN_WIDTH / GRID_SIZE

/-- Constant `GRID_HEIGHT = SCREEN_HEIGHT // GRID_SIZE` from the source. -/
def GRID_HEIGHT : Int := SCREEN_HEIGHT / GRID_SIZE

/-- A pixel coordinate pair `(x, y)`. -/
abbrev Pos := Int × Int

/-- Constant `CENTER_POSITION = (SCREEN_WIDTH // 2, SCREEN_HEIGHT // 2)`. -/
def CENTER_POSITION : Pos := (SCREEN_WIDTH / 2, SCREEN_HEIGHT / 2)

/-- Direction `UP = (0, -1)`. -/
def UP : Pos := (0, -1)

/-- Direction `DOWN = (0, 1)`. -/
def DOWN : Pos := (0, 1)

/-- Direction `LEFT = (-1, 0)`. -/
def LEFT : Pos := (-1, 0)

/-- Direction `RIGHT = (1, 0)`. -/
def RIGHT : Pos := (1, 0)

/-- The four arrow keys (`pygame.K_UP` etc.). -/
inductive Key : Type
  | up
  | down
  | left
  | right
deriving DecidableEq, Repr

/-- The `DIRECTIONS` dict: `.get ((key, direction))`, transliterated entry by
entry; a pair absent from the dict yields `none`. -/
def DIRECTIONS (k : Key) (d : Pos) : Option Pos :=
  if k = Key.up ∧ d = UP then some UP
  else if k = Key.up ∧ d = LEFT then some UP
  else if k = Key.up ∧ d = RIGHT then some UP
  else if k = Key.down ∧ d = DOWN then some DOWN
  else if k = Key.down ∧ d = LEFT then some DOWN
  else if k = Key.down ∧ d = RIGHT then some DOWN
  else if k = Key.left ∧ d = LEFT then some LEFT
  else if k = Key.left ∧ d = UP then some LEFT
  else if k = Key.left ∧ d = DOWN then some LEFT
  else if k = Key.right ∧ d = RIGHT then some RIGHT
  else if k = Key.right ∧ d = UP then some RIGHT
  else if k = Key.right ∧ d = DOWN then some RIGHT
  else none

/-- One `randint`-pair draw from the random generator. -/
abbrev Draw := Nat × Nat

/-- The cell a draw denotes:
`(randint(0, GRID_WIDTH - 1) * GRID_SIZE, randint(0, GRID_HEIGHT - 1) * GRID_SIZE)`. -/
def cellOf (d : Draw) : Pos := ((d.1 : Int) * GRID_SIZE, (d.2 : Int) * GRID_SIZE)

/-- A draw is inside the `randint(0, GRID_WIDTH-1)` / `randint(0, GRID_HEIGHT-1)` bounds. -/
def validDraw (d : Draw) : Prop := (d.1 : Int) < GRID_WIDTH ∧ (d.2 : Int) < GRID_HEIGHT

instance (d : Draw) : Decidable (validDraw d) := by
  unfold validDraw; infer_instance

/-- State of the `Snake` object: `length`, `positions` (head first),
`direction`, `next_direction`, `last` (trimmed cells). -/
structure Snake : Type where
  length : Int
  positions : List Pos
  direction : Pos
  next_direction : Option Pos
  last : List Pos
deriving DecidableEq, Repr

/-- Method `get_head_position`: `positions[0]` (the surrounding program keeps
`positions` non-empty; on an empty list the Python would raise, here the
`Inhabited` default is returned). -/
def Snake.get_head_position (s : Snake) : Pos := s.positions.headI

/-- Method `update_direction`: commit the buffered direction, if any, and clear
the buffer. -/
def Snake.update_direction (s : Snake) : Snake :=
  match s.next_direction with
  | some d => { s with direction := d, next_direction := none }
  | none => s

/-- The `while len(self.positions) > self.length: self.last.append(self.positions.pop())`
loop of `move`: pop cells off the tail into `acc` while too long,
translated with an explicit fuel bound on the iteration count.  The
`ps ≠ []` guard marks the state on which the Python `pop` would raise
(never reached from program states, where `length ≥ 1`). -/
def popLoop (len : Int) : Nat → List Pos → List Pos → List Pos × List Pos
  | 0, ps, acc => (ps, acc)
  | n + 1, ps, acc =>
      if h : (ps.length : Int) > len ∧ ps ≠ [] then
        popLoop len n ps.dropLast (acc ++ [ps.getLast h.2])
      else (ps, acc)

/-- Method `move`: compute the wrapped new head, prepend it, clear `last`, then
trim the tail while `len(positions) > length` (each loop iteration pops
one cell, so `inserted.length` iterations always suffice). -/
def Snake.move (s : Snake) : Snake :=
  let head := s.get_head_position
  let new_x := (head.1 + s.direction.1 * GRID_SIZE) % SCREEN_WIDTH
  let new_y := (head.2 + s.direction.2 * GRID_SIZE) % SCREEN_HEIGHT
  let inserted := (new_x, new_y) :: s.positions
  let res := popLoop s.length inserted.length inserted []
  { s with positions := res.1, last := res.2 }

/-- Method `change_length(delta)`: `self.length = max(1, self.length + delta)`. -/
def Snake.change_length (s : Snake) (delta : Int) : Snake :=
  { s with length := max 1 (s.length + delta) }

/-- Method `reset`, with the `randint` pair drawn by the generator passed in:
`length = 1`, `positions = [drawn cell]`, `direction = RIGHT`,
`next_direction = None`. -/
def Snake.reset (s : Snake) (d : Draw) : Snake :=
  { s with
    length := 1
    positions := [cellOf d]
    direction := RIGHT
    next_direction := none }

/-- Method `get_collision(obj)` with an object argument: head equals the object
position. -/
def Snake.get_collision_obj (s : Snake) (p : Pos) : Bool :=
  s.get_head_position = p

/-- Method `get_collision()` with no argument: head occurs in `positions[1:]`. -/
def Snake.get_collision_self (s : Snake) : Bool :=
  s.get_head_position ∈ s.positions.tail

/-- Body of `handle_keys` for one KEYDOWN event: look the pair
`(key, direction)` up in `DIRECTIONS` and buffer the result if present. -/
def handleKeyEvent (s : Snake) (k : Key) : Snake :=
  match DIRECTIONS k s.direction with
  | some nd => { s with next_direction := some nd }
  | none => s

/-- Function `handle_keys`: process the pending KEYDOWN events in order. -/
def handle_keys (s : Snake) (events : List Key) : Snake :=
  events.foldl handleKeyEvent s

/-- Method `Apple.randomize_position(occupied)` over an explicit draw stream:
return the first drawn cell not in `occupied`, consuming the stream;
`none` when the finite stream runs out (the Python loop is still
spinning). -/
def randomize_position (draws : List Draw) (occupied : List Pos) :
    Option (Pos × List Draw) :=
  match draws with
  | [] => none
  | d :: rest =>
      if cellOf d ∉ occupied then some (cellOf d, rest)
      else randomize_position rest occupied

/-- The `Rock.__init__` / `Poison.__init__` position: one raw draw, no
occupancy check. -/
def rockInitPosition (d : Draw) : Pos := cellOf d

/-- The state the main loop owns: the snake and the three item positions. -/
structure World : Type where
  snake : Snake
  apple : Pos
  rock : Pos
  poison : Pos
deriving DecidableEq, Repr

/-- One iteration of the `while True` loop of `main` (rendering and the
clock stripped): `handle_keys`, `update_direction`, `move`, then the three
independent collision checks, threading the draw stream through each
respawn.  `none` when some respawn exhausts the stream. -/
def tick (w : World) (events : List Key) (draws : List Draw) :
    Option (World × List Draw) :=
  let s0 := handle_keys w.snake events
  let s1 := s0.update_direction
  let s2 := s1.move
  let growthStep : Option (Snake × Pos × List Draw) :=
    if s2.get_collision_obj w.apple then
      let s3 := s2.change_length 1
      match randomize_position draws s3.positions with
      | some (a, rest) => some (s3, a, rest)
      | none => none
    else some (s2, w.apple, draws)
  match growthStep with
  | none => none
  | some (s3, apple1, draws1) =>
      let s4 := if s3.get_collision_obj w.poison then s3.change_length (-1) else s3
      if s4.get_collision_self ∨ s4.get_collision_obj w.rock then
        match draws1 with
        | [] => none
        | dReset :: draws2 =>
            let s5 := s4.reset dReset
            match randomize_position draws2 s5.positions with
            | some (apple2, draws3) =>
                some ({ snake := s5, apple := apple2, rock := w.rock, poison := w.poison },
                  draws3)
            | none => none
      else
        some ({ snake := s4, apple := apple1, rock := w.rock, poison := w.poison }, draws1)

/-- The wrapped head that `move` computes before prepending. -/
def Snake.newHead (s : Snake) : Pos :=
  ((s.get_head_position.1 + s.direction.1 * GRID_SIZE) % SCREEN_WIDTH,
   (s.get_head_position.2 + s.direction.2 * GRID_SIZE) % SCREEN_HEIGHT)

/-- The mutating operations a `Snake` object is subjected to by the
program: `change_length`, `move`, `update_direction`, `reset`, and one
KEYDOWN event of `handle_keys`. -/
inductive SnakeOp : Type
  | changeLen (delta : Int)
  | doMove
  | commitDir
  | doReset (d : Draw)
  | keyEvent (k : Key)
deriving DecidableEq, Repr

/-- Apply one operation to the snake state. -/
def applyOp (s : Snake) : SnakeOp → Snake
  | SnakeOp.changeLen d => s.change_length d
  | SnakeOp.doMove => s.move
  | SnakeOp.commitDir => s.update_direction
  | SnakeOp.doReset d => s.reset d
  | SnakeOp.keyEvent k => handleKeyEvent s k

/-- Apply a sequence of operations left to right. -/
def applyOps (s : Snake) (ops : List SnakeOp) : Snake := ops.foldl applyOp s

/-- The direction an arrow key requests. -/
def keyDir : Key → Pos
  | Key.up => UP
  | Key.down => DOWN
  | Key.left => LEFT
  | Key.right => RIGHT

/-- The four direction constants. -/
def validDir (d : Pos) : Prop := d = UP ∨ d = DOWN ∨ d = LEFT ∨ d = RIGHT

instance (d : Pos) : Decidable (validDir d) := by
  unfold validDir; infer_instance

/-- A cell of the form `(i*GRID_SIZE, j*GRID_SIZE)` with
`0 ≤ i < GRID_WIDTH`, `0 ≤ j < GRID_HEIGHT`. -/
def alignedCell (p : Pos) : Prop :=
  ∃ i j : Nat, (i : Int) < GRID_WIDTH ∧ (j : Int) < GRID_HEIGHT ∧
    p = ((i : Int) * GRID_SIZE, (j : Int) * GRID_SIZE)

/-- The snake state right after `Snake.__init__`: the constructor calls
`reset()` and then overwrites `positions` with `[CENTER_POSITION]`,
`direction` with `RIGHT`, clears the buffer and sets `last = []`. -/
def snakeInit : Snake :=
  { length := 1, positions := [CENTER_POSITION], direction := RIGHT,
    next_direction := none, last := [] }

theorem popLoop_closed (len : Int) (hlen : 0 ≤ len) :
    ∀ (n : Nat) (ps acc : List Pos), ps.length ≤ n →
      popLoop len n ps acc =
        (ps.take len.toNat, acc ++ (ps.drop len.toNat).reverse) := by
  intro n
  induction n with
  | zero =>
    intro ps acc hn
    have hnil : ps = [] := List.length_eq_zero.mp (Nat.le_zero.mp hn)
    subst hnil
    simp [popLoop]
  | succ n ih =>
    intro ps acc hn
    rw [popLoop]
    by_cases h : (ps.length : Int) > len ∧ ps ≠ []
    · rw [dif_pos h]
      have hne := h.2
      have hlt : len.toNat < ps.length := by
        have := h.1
        omega
      have hpos : ps.length ≠ 0 := fun h0 => hne (List.length_eq_zero.mp h0)
      have hdl : ps.dropLast.length ≤ n := by
        rw [List.length_dropLast]
        omega
      rw [ih ps.dropLast (acc ++ [ps.getLast hne]) hdl]
      have h1 : ps.dropLast.take len.toNat = ps.take len.toNat := by
        rw [List.dropLast_eq_take, List.take_take]
        congr 1
        omega
      have h2 : ps.drop len.toNat = ps.dropLast.drop len.toNat ++ [ps.getLast hne] := by
        conv_lhs => rw [← List.dropLast_append_getLast hne]
        rw [List.drop_append_of_le_length]
        rw [List.length_dropLast]
        omega
      rw [h1, h2]
      simp [List.append_assoc]
    · rw [dif_neg h]
      push_neg at h
      by_cases hps : ps = []
      · subst hps
        simp
      · have hle : (ps.length : Int) ≤ len := by
          by_contra hc
          push_neg at hc
          exact hps (h hc)
        have hk : ps.length ≤ len.toNat := by omega
        rw [List.take_of_length_le hk, List.drop_eq_nil_of_le hk]
        simp

/-- Closed form of `move`: the new positions are the first `length` cells of
`newHead :: positions`, and `last` collects the dropped tail cells in the
order they were popped. -/
theorem Snake.move_closed (s : Snake) (hlen : 0 ≤ s.length) :
    s.move = { s with
      positions := (s.newHead :: s.positions).take s.length.toNat,
      last := ((s.newHead :: s.positions).drop s.length.toNat).reverse } := by
  have hpl := popLoop_closed s.length hlen (s.newHead :: s.positions).length
    (s.newHead :: s.positions) [] (le_refl _)
  show { s with
      positions := (popLoop s.length (s.newHead :: s.positions).length
        (s.newHead :: s.positions) []).1,
      last := (popLoop s.length (s.newHead :: s.positions).length
        (s.newHead :: s.positions) []).2 } = _
  rw [hpl]
  simp

/-- C1. One call to `move` sets the head to the componentwise wrap
`((head_x + dx*GRID_SIZE) % SCREEN_WIDTH, (head_y + dy*GRID_SIZE) % SCREEN_HEIGHT)`
and prepends it to `positions`; a head at the maximum x (resp. y)
coordinate moving in the positive direction wraps to 0, and both
coordinates are always non-negative and strictly below the screen bounds. -/
theorem C1_move_wraps (s : Snake) (h1 : 1 ≤ s.length) :
    s.move.get_head_position =
      ((s.get_head_position.1 + s.direction.1 * GRID_SIZE) % SCREEN_WIDTH,
       (s.get_head_position.2 + s.direction.2 * GRID_SIZE) % SCREEN_HEIGHT) ∧
    (∃ t, s.move.positions = s.move.get_head_position :: t) ∧
    (s.get_head_position.1 = SCREEN_WIDTH - GRID_SIZE ∧ s.direction = RIGHT →
      s.move.get_head_position.1 = 0) ∧
    (s.get_head_position.2 = SCREEN_HEIGHT - GRID_SIZE ∧ s.direction = DOWN →
      s.move.get_head_position.2 = 0) ∧
    0 ≤ s.move.get_head_position.1 ∧ s.move.get_head_position.1 < SCREEN_WIDTH ∧
    0 ≤ s.move.get_head_position.2 ∧ s.move.get_head_position.2 < SCREEN_HEIGHT := by
  have h0 : (0 : Int) ≤ s.length := by omega
  have hmv := Snake.move_closed s h0
  have hk : 1 ≤ s.length.toNat := by omega
  have hpos : s.move.positions = s.newHead :: s.positions.take (s.length.toNat - 1) := by
    rw [hmv]
    simp only []
    rw [List.take_cons hk]
  have hhead : s.move.get_head_position = s.newHead := by
    rw [Snake.get_head_position, hpos]
    rfl
  refine ⟨hhead, ⟨s.positions.take (s.length.toNat - 1), by rw [hpos, hhead]⟩, ?_, ?_, ?_, ?_, ?_, ?_⟩
  · rintro ⟨hx, hd⟩
    rw [hhead]
    show (s.get_head_position.1 + s.direction.1 * GRID_SIZE) % SCREEN_WIDTH = 0
    rw [hx, hd]
    decide
  · rintro ⟨hy, hd⟩
    rw [hhead]
    show (s.get_head_position.2 + s.direction.2 * GRID_SIZE) % SCREEN_HEIGHT = 0
    rw [hy, hd]
    decide
  · rw [hhead]
    exact Int.emod_nonneg _ (by decide)
  · rw [hhead]
    exact Int.emod_lt_of_pos _ (by decide)
  · rw [hhead]
    exact Int.emod_nonneg _ (by decide)
  · rw [hhead]
    exact Int.emod_lt_of_pos _ (by decide)

/-- Witness for C1 at a concrete snake: head `(620, 240)` moving RIGHT
wraps to `(0, 240)`. -/
theorem C1_move_wraps_witness :
    1 ≤ (Snake.mk 1 [(620, 240)] RIGHT none []).length ∧
    (Snake.mk 1 [(620, 240)] RIGHT none []).move.get_head_position = (0, 240) := by
  refine ⟨by decide, ?_⟩
  have h := C1_move_wraps (Snake.mk 1 [(620, 240)] RIGHT none []) (by decide)
  rw [h.1]
  decide

theorem applyOp_length_ge_one (s : Snake) (op : SnakeOp) (h : 1 ≤ s.length) :
    1 ≤ (applyOp s op).length := by
  cases op with
  | changeLen d =>
      show 1 ≤ max 1 (s.length + d)
      exact le_max_left _ _
  | doMove => exact h
  | commitDir =>
      show 1 ≤ s.update_direction.length
      unfold Snake.update_direction
      cases hD : s.next_direction
      · simpa [hD] using h
      · simpa [hD] using h
  | doReset d => exact le_refl 1
  | keyEvent k =>
      show 1 ≤ (handleKeyEvent s k).length
      unfold handleKeyEvent
      cases hD : DIRECTIONS k s.direction
      · simpa [hD] using h
      · simpa [hD] using h

/-- C2. `change_length(delta)` sets `length` to `max(1, length + delta)`,
so the result is at least 1; and across any sequence of operations
(including `change_length` interleaved with the others) `length` never
goes below 1. -/
theorem C2_length_clamp (s : Snake) (delta : Int) (ops : List SnakeOp) (h : 1 ≤ s.length) :
    (s.change_length delta).length = max 1 (s.length + delta) ∧
    1 ≤ (s.change_length delta).length ∧
    1 ≤ (applyOps s ops).length := by
  refine ⟨rfl, le_max_left _ _, ?_⟩
  induction ops generalizing s with
  | nil => exact h
  | cons op rest ih =>
      exact ih (applyOp s op) (applyOp_length_ge_one s op h)

/-- Witness for C2 at a concrete snake and operation list: a shrink by 5
from length 2 clamps to 1. -/
theorem C2_length_clamp_witness :
    1 ≤ (Snake.mk 2 [(0, 0), (20, 0)] RIGHT none []).length ∧
    ((Snake.mk 2 [(0, 0), (20, 0)] RIGHT none []).change_length (-5)).length = max 1 (2 + (-5)) ∧
    1 ≤ (applyOps (Snake.mk 2 [(0, 0), (20, 0)] RIGHT none [])
      [SnakeOp.changeLen (-5), SnakeOp.doMove]).length := by
  have h := C2_length_clamp (Snake.mk 2 [(0, 0), (20, 0)] RIGHT none []) (-5)
    [SnakeOp.changeLen (-5), SnakeOp.doMove] (by decide)
  exact ⟨by decide, h.1, h.2.2⟩

/-- C3. With committed direction `D`, a KEYDOWN requesting the exact
reverse of `D` leaves the buffer unchanged (here: still empty), so the
next `update_direction` keeps `D`; a KEYDOWN requesting any other
direction (including `D` itself) buffers it and the next
`update_direction` commits it. -/
theorem C3_no_reversal (s : Snake) (k : Key)
    (hd : validDir s.direction) (hbuf : s.next_direction = none) :
    (keyDir k = (-s.direction.1, -s.direction.2) →
      (handleKeyEvent s k).next_direction = none ∧
      (handleKeyEvent s k).update_direction.direction = s.direction) ∧
    (keyDir k ≠ (-s.direction.1, -s.direction.2) →
      (handleKeyEvent s k).next_direction = some (keyDir k) ∧
      (handleKeyEvent s k).update_direction.direction = keyDir k) := by
  rcases hd with hD | hD | hD | hD <;> cases k <;>
    simp [handleKeyEvent, DIRECTIONS, keyDir, Snake.update_direction, hD, hbuf,
      UP, DOWN, LEFT, RIGHT]

/-- Witness for C3: committed RIGHT, pressing LEFT is dropped, pressing UP
is buffered and committed. -/
theorem C3_no_reversal_witness :
    validDir (Snake.mk 1 [((0 : Int), (0 : Int))] RIGHT none []).direction ∧
    (Snake.mk 1 [((0 : Int), (0 : Int))] RIGHT none []).next_direction = none ∧
    (handleKeyEvent (Snake.mk 1 [((0 : Int), (0 : Int))] RIGHT none [])
      Key.left).update_direction.direction = RIGHT ∧
    (handleKeyEvent (Snake.mk 1 [((0 : Int), (0 : Int))] RIGHT none [])
      Key.up).update_direction.direction = UP := by
  have h1 := C3_no_reversal (Snake.mk 1 [((0 : Int), (0 : Int))] RIGHT none [])
    Key.left (by decide) rfl
  have h2 := C3_no_reversal (Snake.mk 1 [((0 : Int), (0 : Int))] RIGHT none [])
    Key.up (by decide) rfl
  exact ⟨by decide, rfl, (h1.1 (by decide)).2, (h2.2 (by decide)).2⟩

/-- C9. `reset` establishes length 1, a single-element position list
holding one grid-aligned cell, direction RIGHT and a cleared buffer; the
no-argument `get_collision` is true iff the head occurs among
`positions[1:]`, hence false for every single-segment snake. -/
theorem C9_reset_and_self_collision (s t : Snake) (d : Draw) (p : Pos)
    (hd : validDraw d) (hp : t.positions = [p]) :
    (s.reset d).length = 1 ∧
    (s.reset d).positions = [cellOf d] ∧
    alignedCell (cellOf d) ∧
    (s.reset d).direction = RIGHT ∧
    (s.reset d).next_direction = none ∧
    (s.get_collision_self = true ↔ s.get_head_position ∈ s.positions.tail) ∧
    t.get_collision_self = false := by
  refine ⟨rfl, rfl, ⟨d.1, d.2, hd.1, hd.2, rfl⟩, rfl, rfl, ?_, ?_⟩
  · simp [Snake.get_collision_self]
  · simp [Snake.get_collision_self, hp]

/-- Witness for C9 at a concrete draw and single-segment snake. -/
theorem C9_reset_and_self_collision_witness :
    validDraw (3, 4) ∧
    (Snake.mk 7 [((0 : Int), (0 : Int)), (20, 0)] UP (some DOWN) []).positions ≠ [] ∧
    ((Snake.mk 7 [((0 : Int), (0 : Int)), (20, 0)] UP (some DOWN) []).reset (3, 4)).positions
      = [(60, 80)] ∧
    (Snake.mk 1 [((100 : Int), (100 : Int))] RIGHT none []).get_collision_self = false := by
  have h := C9_reset_and_self_collision
    (Snake.mk 7 [((0 : Int), (0 : Int)), (20, 0)] UP (some DOWN) [])
    (Snake.mk 1 [((100 : Int), (100 : Int))] RIGHT none [])
    (3, 4) (100, 100) (by decide) rfl
  refine ⟨by decide, by decide, ?_, h.2.2.2.2.2.2⟩
  rw [h.2.1]
  decide

theorem move_length_eq (t : Snake) : t.move.length = t.length := rfl

theorem move_positions_length (t : Snake) (h1 : 1 ≤ t.length) :
    t.move.positions.length = min t.length.toNat (t.positions.length + 1) := by
  rw [Snake.move_closed t (by omega)]
  simp [List.length_take]

theorem move_iter_steady (t : Snake) (h1 : 1 ≤ t.length)
    (h2 : (t.positions.length : Int) = t.length) (k : Nat) :
    (Snake.move^[k] t).positions.length = t.positions.length := by
  induction k generalizing t with
  | zero => rfl
  | succ k ih =>
      rw [Function.iterate_succ_apply]
      have hml : t.move.length = t.length := move_length_eq t
      have hmp : t.move.positions.length = t.positions.length := by
        rw [move_positions_length t h1]
        omega
      rw [ih t.move (by omega) (by rw [hmp, hml]; exact h2), hmp]

/-- C7. In a steady state (`len(positions) = length`), `change_length(+1)`
followed by `move()` leaves `last` empty and grows the body by exactly
one cell; further `move()` calls keep the body at the new length.  In
general `move` prepends the wrapped head and trims the tail down to
`length` cells, collecting exactly the removed cells into `last`. -/
theorem C7_growth_lag (s : Snake) (hlen : 1 ≤ s.length)
    (hsteady : (s.positions.length : Int) = s.length) :
    ((s.change_length 1).move.last = [] ∧
     (s.change_length 1).move.positions.length = s.positions.length + 1) ∧
    (∀ k : Nat, (Snake.move^[k] ((s.change_length 1).move)).positions.length
        = s.positions.length + 1) ∧
    (∀ t : Snake, 1 ≤ t.length →
      t.move.positions = (t.newHead :: t.positions).take t.length.toNat ∧
      t.move.last = ((t.newHead :: t.positions).drop t.length.toNat).reverse) := by
  have hglen : (s.change_length 1).length = s.length + 1 := by
    show max 1 (s.length + 1) = s.length + 1
    omega
  have hgpos : (s.change_length 1).positions = s.positions := rfl
  have hmc := Snake.move_closed (s.change_length 1) (by rw [hglen]; omega)
  have htake : ((s.change_length 1).newHead :: (s.change_length 1).positions).length
      ≤ (s.change_length 1).length.toNat := by
    rw [hglen, hgpos]
    simp only [List.length_cons]
    omega
  have hposs : (s.change_length 1).move.positions
      = (s.change_length 1).newHead :: s.positions := by
    rw [hmc]
    show List.take _ _ = _
    rw [← hgpos]
    exact List.take_of_length_le htake
  have hlast : (s.change_length 1).move.last = [] := by
    rw [hmc]
    show (List.drop _ _).reverse = _
    rw [List.drop_eq_nil_of_le htake]
    rfl
  have hlen1 : (s.change_length 1).move.positions.length = s.positions.length + 1 := by
    rw [hposs]
    rfl
  refine ⟨⟨hlast, hlen1⟩, ?_, ?_⟩
  · intro k
    have hsm : ((s.change_length 1).move.positions.length : Int)
        = (s.change_length 1).move.length := by
      rw [hlen1, move_length_eq, hglen]
      omega
    rw [move_iter_steady ((s.change_length 1).move)
      (by rw [move_length_eq, hglen]; omega) hsm k, hlen1]
  · intro t ht
    have := Snake.move_closed t (by omega)
    rw [this]
    exact ⟨rfl, rfl⟩

/-- Witness for C7: a steady snake of length 2 grows to body length 3 with
nothing trimmed, and stays there. -/
theorem C7_growth_lag_witness :
    1 ≤ (Snake.mk 2 [((40 : Int), (0 : Int)), (20, 0)] RIGHT none []).length ∧
    ((Snake.mk 2 [((40 : Int), (0 : Int)), (20, 0)] RIGHT none
      []).positions.length : Int) = 2 ∧
    ((Snake.mk 2 [((40 : Int), (0 : Int)), (20, 0)] RIGHT none
      []).change_length 1).move.last = [] ∧
    (Snake.move^[2] (((Snake.mk 2 [((40 : Int), (0 : Int)), (20, 0)] RIGHT none
      []).change_length 1).move)).positions.length = 3 := by
  have h := C7_growth_lag (Snake.mk 2 [((40 : Int), (0 : Int)), (20, 0)] RIGHT none [])
    (by decide) (by decide)
  exact ⟨by decide, by decide, h.1.1, h.2.1 2⟩

theorem randomize_position_spec (occ : List Pos) :
    ∀ (draws : List Draw) (res : Pos) (rest : List Draw),
      randomize_position draws occ = some (res, rest) →
      res ∉ occ ∧ ∃ d ∈ draws, res = cellOf d := by
  intro draws
  induction draws with
  | nil =>
      intro res rest h
      simp [randomize_position] at h
  | cons d ds ih =>
      intro res rest h
      rw [randomize_position] at h
      by_cases hm : cellOf d ∉ occ
      · rw [if_pos hm] at h
        injection h with h1
        injection h1 with ha hb
        subst ha
        exact ⟨hm, d, List.mem_cons_self d ds, rfl⟩
      · rw [if_neg hm] at h
        obtain ⟨h1, d2, hd2, h2⟩ := ih res rest h
        exact ⟨h1, d2, List.mem_cons_of_mem d hd2, h2⟩

theorem randomize_position_succeeds (occ : List Pos) :
    ∀ draws : List Draw, (∃ d ∈ draws, cellOf d ∉ occ) →
      ∃ res rest, randomize_position draws occ = some (res, rest) := by
  intro draws
  induction draws with
  | nil =>
      rintro ⟨d, hd, _⟩
      exact absurd hd (List.not_mem_nil d)
  | cons d ds ih =>
      rintro ⟨e, he, hfree⟩
      rw [List.mem_cons] at he
      by_cases hm : cellOf d ∉ occ
      · exact ⟨cellOf d, ds, by rw [randomize_position, if_pos hm]⟩
      · rcases he with rfl | he
        · exact absurd hfree hm
        · obtain ⟨res, rest, hr⟩ := ih ⟨e, he, hfree⟩
          exact ⟨res, rest, by rw [randomize_position, if_neg hm]; exact hr⟩

/-- C4. Whenever `randomize_position` returns, the stored position is a
drawn (hence grid-aligned) cell not contained in `occupied` - no run ever
returns a coordinate in `occupied`; and when `occupied` does not cover
all grid-aligned cells the loop terminates: any draw stream offering a
free cell makes it return, and a valid such stream exists. -/
theorem C4_spawn_exclusion (draws : List Draw) (occ : List Pos)
    (hocc : ¬ ∀ p, alignedCell p → p ∈ occ) :
    (∀ res rest, randomize_position draws occ = some (res, rest) →
      res ∉ occ ∧ ((∀ d ∈ draws, validDraw d) → alignedCell res)) ∧
    ((∃ d ∈ draws, cellOf d ∉ occ) →
      ∃ res rest, randomize_position draws occ = some (res, rest)) ∧
    (∃ ds : List Draw, (∀ d ∈ ds, validDraw d) ∧
      ∃ res rest, randomize_position ds occ = some (res, rest) ∧ res ∉ occ) := by
  refine ⟨?_, randomize_position_succeeds occ draws, ?_⟩
  · intro res rest h
    obtain ⟨hnm, d, hd, hres⟩ := randomize_position_spec occ draws res rest h
    refine ⟨hnm, fun hv => ?_⟩
    obtain ⟨h1, h2⟩ := hv d hd
    exact ⟨d.1, d.2, h1, h2, hres⟩
  · push_neg at hocc
    obtain ⟨p, ⟨i, j, hi, hj, hp⟩, hfree⟩ := hocc
    have hc : cellOf (i, j) = p := by
      rw [hp]
      rfl
    refine ⟨[(i, j)], ?_, cellOf (i, j), [], ?_, ?_⟩
    · intro d hd
      rw [List.mem_singleton] at hd
      subst hd
      exact ⟨hi, hj⟩
    · rw [randomize_position, if_pos (by rw [hc]; exact hfree)]
    · rw [hc]
      exact hfree

/-- Witness for C4: occupied `[(0, 0)]`, stream `[(0, 0), (1, 0)]`: the
call returns `(20, 0)`, which is outside the occupied set. -/
theorem C4_spawn_exclusion_witness :
    (¬ ∀ p, alignedCell p → p ∈ [((0 : Int), (0 : Int))]) ∧
    ∃ res rest,
      randomize_position [(0, 0), (1, 0)] [((0 : Int), (0 : Int))] = some (res, rest) := by
  have hocc : ¬ ∀ p, alignedCell p → p ∈ [((0 : Int), (0 : Int))] := by
    intro hall
    have := hall (20, 0) ⟨1, 0, by decide, by decide, by decide⟩
    simp at this
  have h := C4_spawn_exclusion [(0, 0), (1, 0)] [((0 : Int), (0 : Int))] hocc
  exact ⟨hocc, h.2.1 ⟨(1, 0), by decide, by decide⟩⟩

theorem popLoop_positions_subset (len : Int) :
    ∀ (n : Nat) (ps acc : List Pos), (popLoop len n ps acc).1 ⊆ ps := by
  intro n
  induction n with
  | zero =>
      intro ps acc
      exact fun q hq => hq
  | succ n ih =>
      intro ps acc
      rw [popLoop]
      by_cases h : (ps.length : Int) > len ∧ ps ≠ []
      · rw [dif_pos h]
        exact fun q hq => (List.dropLast_sublist ps).subset (ih _ _ hq)
      · rw [dif_neg h]
        exact fun q hq => hq

theorem wrap_aligned_step (i dx B : Int) (hB : 0 < B) :
    ∃ k : Nat, (k : Int) < B ∧
      (i * GRID_SIZE + dx * GRID_SIZE) % (B * GRID_SIZE) = (k : Int) * GRID_SIZE := by
  have h2 : 0 ≤ (i + dx) % B := Int.emod_nonneg _ (by omega)
  refine ⟨((i + dx) % B).toNat, ?_, ?_⟩
  · have h1 : (i + dx) % B < B := Int.emod_lt_of_pos _ hB
    omega
  · rw [Int.toNat_of_nonneg h2]
    have e1 : i * GRID_SIZE + dx * GRID_SIZE = GRID_SIZE * (i + dx) := by ring
    have e2 : B * GRID_SIZE = GRID_SIZE * B := by ring
    rw [e1, e2, Int.mul_emod_mul_of_pos _ _ (by decide : (0 : Int) < GRID_SIZE), mul_comm]

theorem newHead_aligned (s : Snake) (hne : s.positions ≠ [])
    (hpos : ∀ q ∈ s.positions, alignedCell q) (_hdir : validDir s.direction) :
    alignedCell s.newHead := by
  have hhead : s.get_head_position ∈ s.positions := by
    cases hps : s.positions with
    | nil => exact absurd hps hne
    | cons a t =>
        rw [Snake.get_head_position, hps]
        exact List.mem_cons_self a t
  obtain ⟨i, j, hi, hj, he⟩ := hpos _ hhead
  obtain ⟨k, hk, hkx⟩ := wrap_aligned_step (i : Int) s.direction.1 GRID_WIDTH (by decide)
  obtain ⟨l, hl, hly⟩ := wrap_aligned_step (j : Int) s.direction.2 GRID_HEIGHT (by decide)
  refine ⟨k, l, hk, hl, ?_⟩
  rw [Snake.newHead, he]
  have ew : SCREEN_WIDTH = GRID_WIDTH * GRID_SIZE := by decide
  have eh : SCREEN_HEIGHT = GRID_HEIGHT * GRID_SIZE := by decide
  rw [ew, eh, Prod.mk.injEq]
  exact ⟨hkx, hly⟩

/-- C10. Starting from a snake whose cells are all grid-aligned in-bounds
and whose direction is one of the four unit vectors, `move`, `reset` and
`randomize_position` (on a valid draw stream) produce only grid-aligned
in-bounds cells again. -/
theorem C10_grid_alignment (s : Snake) (d : Draw) (draws : List Draw) (occ : List Pos)
    (hne : s.positions ≠ [])
    (hpos : ∀ q ∈ s.positions, alignedCell q)
    (hdir : validDir s.direction)
    (hd : validDraw d)
    (hdraws : ∀ q ∈ draws, validDraw q) :
    (∀ q ∈ s.move.positions, alignedCell q) ∧
    (∀ q ∈ (s.reset d).positions, alignedCell q) ∧
    (∀ res rest, randomize_position draws occ = some (res, rest) → alignedCell res) := by
  refine ⟨?_, ?_, ?_⟩
  · intro q hq
    have hsub : s.move.positions ⊆ s.newHead :: s.positions := by
      show (popLoop s.length (s.newHead :: s.positions).length
        (s.newHead :: s.positions) []).1 ⊆ _
      exact popLoop_positions_subset s.length _ _ []
    rcases List.mem_cons.mp (hsub hq) with rfl | hmem
    · exact newHead_aligned s hne hpos hdir
    · exact hpos _ hmem
  · intro q hq
    rw [List.mem_singleton.mp hq]
    exact ⟨d.1, d.2, hd.1, hd.2, rfl⟩
  · intro res rest h
    obtain ⟨_, e, he, hres⟩ := randomize_position_spec occ draws res rest h
    obtain ⟨h1, h2⟩ := hdraws e he
    exact ⟨e.1, e.2, h1, h2, hres⟩

/-- Witness for C10 at a concrete aligned snake, draw and stream. -/
theorem C10_grid_alignment_witness :
    (Snake.mk 1 [((620 : Int), (460 : Int))] DOWN none []).positions ≠ [] ∧
    validDraw (31, 23) ∧
    alignedCell ((Snake.mk 1 [((620 : Int), (460 : Int))] DOWN none
      []).reset (31, 23)).positions.headI := by
  have h := C10_grid_alignment (Snake.mk 1 [((620 : Int), (460 : Int))] DOWN none [])
    (31, 23) [] []
    (by decide)
    (by
      intro q hq
      rw [List.mem_singleton.mp hq]
      exact ⟨31, 23, by decide, by decide, by decide⟩)
    (by decide) (by decide) (by intro q hq; exact absurd hq (List.not_mem_nil q))
  refine ⟨by decide, by decide, ?_⟩
  exact h.2.1 _ (by exact List.mem_cons_self _ _)

/-- C5 counterexample. When `main` constructs `Rock()` the snake occupies
`[CENTER_POSITION]`; the draw `(16, 12)` is inside the `randint` bounds
and places the rock exactly on the only snake segment, so an item can
overlap the agent at spawn time. -/
theorem C5_counterexample :
    validDraw (16, 12) ∧ rockInitPosition (16, 12) ∈ snakeInit.positions := by
  decide

/-- C5 amended: only `randomize_position` (the Apple placement) guarantees
a cell disjoint from the occupied list it is given; `Rock.__init__` and
`Poison.__init__` draw an unconstrained random cell and can land on a
snake segment. -/
theorem C5_amended_spawn (draws : List Draw) (occ : List Pos) (res : Pos)
    (rest : List Draw) (h : randomize_position draws occ = some (res, rest)) :
    res ∉ occ ∧
    ∃ d : Draw, validDraw d ∧ rockInitPosition d ∈ snakeInit.positions := by
  exact ⟨(randomize_position_spec occ draws res rest h).1, (16, 12), by decide, by decide⟩

/-- Witness for the amended C5 at a concrete call. -/
theorem C5_amended_spawn_witness :
    randomize_position [(0, 0), (1, 0)] [((0 : Int), (0 : Int))]
      = some ((20, 0), []) ∧
    (20, 0) ∉ [((0 : Int), (0 : Int))] := by
  refine ⟨by decide, ?_⟩
  exact (C5_amended_spawn [(0, 0), (1, 0)] [((0 : Int), (0 : Int))] (20, 0) [] (by decide)).1

/-- C6 counterexample. A tick in which the moved head lands on the poison
leaves the poison where it was: it is not re-spawned, and afterwards it
coincides with the head cell of the snake, so it did not move to a free cell. -/
theorem C6_counterexample :
    ∃ res, tick (World.mk (Snake.mk 1 [((0 : Int), (0 : Int))] RIGHT none [])
        (100, 100) (200, 200) (20, 0)) [] [] = some res ∧
      res.1.poison = (20, 0) ∧ res.1.poison ∈ res.1.snake.positions := by
  exact ⟨(World.mk (Snake.mk 1 [(20, 0)] RIGHT none [(0, 0)]) (100, 100) (200, 200) (20, 0),
    []), by decide, by decide, by decide⟩

/-- C6 amended: within a tick the rock and the poison positions never
change (the rock is placed once at construction, and so is the poison);
only the apple re-spawns, and when the moved head consumes it the new
apple cell avoids the current snake segments. -/
theorem C6_amended_respawn (w : World) (events : List Key) (draws : List Draw)
    (res : World × List Draw) (h : tick w events draws = some res) :
    res.1.rock = w.rock ∧ res.1.poison = w.poison ∧
    ((((handle_keys w.snake events).update_direction).move).get_collision_obj w.apple →
      res.1.apple ∉ res.1.snake.positions) := by
  simp only [tick] at h
  set s2 := ((handle_keys w.snake events).update_direction).move with hs2
  by_cases hA : s2.get_collision_obj w.apple = true
  · rw [if_pos hA] at h
    cases hr : randomize_position draws (s2.change_length 1).positions with
    | none =>
        rw [hr] at h
        simp at h
    | some v =>
        obtain ⟨a1, draws1⟩ := v
        rw [hr] at h
        simp only [] at h
        have ha1 : a1 ∉ (s2.change_length 1).positions :=
          (randomize_position_spec _ _ _ _ hr).1
        by_cases hP : (s2.change_length 1).get_collision_obj w.poison = true
        · rw [if_pos hP] at h
          by_cases hL : ((s2.change_length 1).change_length (-1)).get_collision_self = true ∨
              ((s2.change_length 1).change_length (-1)).get_collision_obj w.rock = true
          · rw [if_pos hL] at h
            cases draws1 with
            | nil => simp at h
            | cons dReset draws2 =>
                simp only [] at h
                cases hr2 : randomize_position draws2
                    ((((s2.change_length 1).change_length (-1)).reset dReset).positions) with
                | none =>
                    rw [hr2] at h
                    simp at h
                | some v2 =>
                    obtain ⟨a2, draws3⟩ := v2
                    rw [hr2] at h
                    simp only [] at h
                    injection h with h1
                    subst h1
                    refine ⟨rfl, rfl, fun _ => ?_⟩
                    exact (randomize_position_spec _ _ _ _ hr2).1
          · rw [if_neg hL] at h
            injection h with h1
            subst h1
            exact ⟨rfl, rfl, fun _ => ha1⟩
        · rw [if_neg hP] at h
          by_cases hL : (s2.change_length 1).get_collision_self = true ∨
              (s2.change_length 1).get_collision_obj w.rock = true
          · rw [if_pos hL] at h
            cases draws1 with
            | nil => simp at h
            | cons dReset draws2 =>
                simp only [] at h
                cases hr2 : randomize_position draws2
                    (((s2.change_length 1).reset dReset).positions) with
                | none =>
                    rw [hr2] at h
                    simp at h
                | some v2 =>
                    obtain ⟨a2, draws3⟩ := v2
                    rw [hr2] at h
                    simp only [] at h
                    injection h with h1
                    subst h1
                    refine ⟨rfl, rfl, fun _ => ?_⟩
                    exact (randomize_position_spec _ _ _ _ hr2).1
          · rw [if_neg hL] at h
            injection h with h1
            subst h1
            exact ⟨rfl, rfl, fun _ => ha1⟩
  · rw [if_neg hA] at h
    simp only [] at h
    by_cases hP : s2.get_collision_obj w.poison = true
    · rw [if_pos hP] at h
      by_cases hL : (s2.change_length (-1)).get_collision_self = true ∨
          (s2.change_length (-1)).get_collision_obj w.rock = true
      · rw [if_pos hL] at h
        cases draws with
        | nil => simp at h
        | cons dReset draws2 =>
            simp only [] at h
            cases hr2 : randomize_position draws2
                (((s2.change_length (-1)).reset dReset).positions) with
            | none =>
                rw [hr2] at h
                simp at h
            | some v2 =>
                obtain ⟨a2, draws3⟩ := v2
                rw [hr2] at h
                simp only [] at h
                injection h with h1
                subst h1
                exact ⟨rfl, rfl, fun hc => absurd hc hA⟩
      · rw [if_neg hL] at h
        injection h with h1
        subst h1
        exact ⟨rfl, rfl, fun hc => absurd hc hA⟩
    · rw [if_neg hP] at h
      by_cases hL : s2.get_collision_self = true ∨ s2.get_collision_obj w.rock = true
      · rw [if_pos hL] at h
        cases draws with
        | nil => simp at h
        | cons dReset draws2 =>
            simp only [] at h
            cases hr2 : randomize_position draws2 ((s2.reset dReset).positions) with
            | none =>
                rw [hr2] at h
                simp at h
            | some v2 =>
                obtain ⟨a2, draws3⟩ := v2
                rw [hr2] at h
                simp only [] at h
                injection h with h1
                subst h1
                exact ⟨rfl, rfl, fun hc => absurd hc hA⟩
      · rw [if_neg hL] at h
        injection h with h1
        subst h1
        exact ⟨rfl, rfl, fun hc => absurd hc hA⟩

/-- Witness for the amended C6 at a concrete consuming tick. -/
theorem C6_amended_respawn_witness :
    tick (World.mk (Snake.mk 1 [((0 : Int), (0 : Int))] RIGHT none [])
        (20, 0) (200, 200) (300, 300)) [] [(5, 5)]
      = some (World.mk (Snake.mk 2 [(20, 0)] RIGHT none [(0, 0)])
        (100, 100) (200, 200) (300, 300), []) ∧
    (100, 100) ∉ [((20 : Int), (0 : Int))] := by
  have h := C6_amended_respawn
    (World.mk (Snake.mk 1 [((0 : Int), (0 : Int))] RIGHT none []) (20, 0) (200, 200) (300, 300))
    [] [(5, 5)]
    (World.mk (Snake.mk 2 [(20, 0)] RIGHT none [(0, 0)]) (100, 100) (200, 200) (300, 300), [])
    (by decide)
  refine ⟨by decide, ?_⟩
  exact h.2.2 rfl

/-- C8. With the moved head on both the apple and the rock, the tick first
applies the growth effect - `change_length(+1)` and an apple re-spawn that
consumes the stream while avoiding the grown snake segments - and then
the lethal effect: `reset` consumes the next draw and the apple re-spawns
again avoiding the reset position; movement itself happens after the
direction commit and before all checks. -/
theorem C8_tick_order (w : World) (events : List Key) (draws : List Draw)
    (a1 : Pos) (dReset : Draw) (draws2 : List Draw) (a2 : Pos) (draws3 : List Draw)
    (hA : (((handle_keys w.snake events).update_direction).move).get_collision_obj
      w.apple = true)
    (hR : (((handle_keys w.snake events).update_direction).move).get_collision_obj
      w.rock = true)
    (hG : randomize_position draws
        ((((handle_keys w.snake events).update_direction).move).change_length 1).positions
      = some (a1, dReset :: draws2))
    (hF : randomize_position draws2 [cellOf dReset] = some (a2, draws3)) :
    tick w events draws = some
      ({ snake := { length := 1, positions := [cellOf dReset], direction := RIGHT,
                    next_direction := none,
                    last := (((handle_keys w.snake events).update_direction).move).last },
         apple := a2, rock := w.rock, poison := w.poison }, draws3) := by
  simp only [tick]
  set s2 := ((handle_keys w.snake events).update_direction).move with hs2
  rw [if_pos hA, hG]
  simp only []
  by_cases hP : (s2.change_length 1).get_collision_obj w.poison = true
  · rw [if_pos hP]
    have hLr : ((s2.change_length 1).change_length (-1)).get_collision_obj w.rock = true := hR
    rw [if_pos (Or.inr hLr)]
    have hres : ((((s2.change_length 1).change_length (-1)).reset dReset)).positions
        = [cellOf dReset] := rfl
    rw [hres, hF]
    rfl
  · rw [if_neg hP]
    have hLr : (s2.change_length 1).get_collision_obj w.rock = true := hR
    rw [if_pos (Or.inr hLr)]
    have hres : (((s2.change_length 1).reset dReset)).positions = [cellOf dReset] := rfl
    rw [hres, hF]
    rfl

/-- Witness for C8 at a concrete world whose moved head hits the apple and
the rock at once. -/
theorem C8_tick_order_witness :
    ((((handle_keys (Snake.mk 1 [((0 : Int), (0 : Int))] RIGHT none [])
      []).update_direction).move).get_collision_obj (20, 0) = true) ∧
    tick (World.mk (Snake.mk 1 [((0 : Int), (0 : Int))] RIGHT none [])
        (20, 0) (20, 0) (100, 100)) [] [(5, 5), (3, 3), (2, 2)]
      = some ({ snake := { length := 1, positions := [(60, 60)], direction := RIGHT,
                           next_direction := none, last := [(0, 0)] },
                apple := (40, 40), rock := (20, 0), poison := (100, 100) }, []) := by
  have h := C8_tick_order
    (World.mk (Snake.mk 1 [((0 : Int), (0 : Int))] RIGHT none []) (20, 0) (20, 0) (100, 100))
    [] [(5, 5), (3, 3), (2, 2)] (100, 100) (3, 3) [(2, 2)] (40, 40) []
    (by decide) (by decide) (by decide) (by decide)
  refine ⟨by decide, ?_⟩
  rw [h]
  decide

end TheSnake
